import Mathlib

/-
Verification of the pyear blink-property pipeline.

Embedding conventions:
* Sample values, DataFrame cells and all derived quantities live in
  `Val := Option ℚ`; `none` models IEEE NaN (and a missing cell), so the
  NaN-aware equality used by the spec is plain equality of `Val`.
* Fallible Python code (pandas `astype` on NaN, exceptions raised by the
  blink fitter or the property calculator) is modelled with
  `Except PyError`.
* Functions of the repository that are not present under `src/`
  (`matlab_forking.py`, `zero_crossing.py`, `fit_blink.py`,
  `extract_blink_properties.py`) are modelled from the spec; each such
  definition carries a doc comment starting with `Modelled from the spec:`.
  Everything else is translated from the source files.
-/

/-- A signal sample or DataFrame cell: `none` models NaN / a missing value. -/
abbrev Val := Option ℚ

/-- NaN-propagating addition on `Val`. -/
def vAdd : Val → Val → Val
  | some a, some b => some (a + b)
  | _, _ => none

/-- NaN-propagating subtraction on `Val`. -/
def vSub : Val → Val → Val
  | some a, some b => some (a - b)
  | _, _ => none

/-- NaN-propagating multiplication on `Val`. -/
def vMul : Val → Val → Val
  | some a, some b => some (a * b)
  | _, _ => none

/-- NaN-propagating division on `Val`.  Division by zero yields `none`
(the float result would be `inf` or `nan`; neither is a finite number, and
downstream the pipeline treats both as not-computable). -/
def vDiv : Val → Val → Val
  | some a, some b => if b = 0 then none else some (a / b)
  | _, _ => none

/-- NaN-propagating negation on `Val`. -/
def vNeg : Val → Val
  | some a => some (-a)
  | none => none

/-- Mean of a list of rationals (0 for the empty list, via division by 0). -/
def meanQ (xs : List ℚ) : ℚ := xs.sum / (xs.length : ℚ)

/-- Sample variance (normalisation by `n - 1`, MATLAB `std` convention). -/
def sampleVarQ (xs : List ℚ) : ℚ :=
  ((xs.map (fun a => (a - meanQ xs) ^ 2)).sum) / ((xs.length : ℚ) - 1)

/-- Standard deviation, parameterised by the square-root routine `sqrtFn`
(the square root of a rational is in general irrational, so the embedding
keeps it abstract; every claim proved below holds for an arbitrary
`sqrtFn`). -/
def stdQ (sqrtFn : ℚ → ℚ) (xs : List ℚ) : ℚ := sqrtFn (sampleVarQ xs)

/-- Result of `polyfitMatlab`: coefficients `p` (slope first, MATLAB
order), the residual structure `S` (unused by the claims, kept as `Unit`)
and the centering data `mu = (mean, std)`. -/
structure PolyFit where
  p : Val × Val
  S : Unit
  mu : Val × Val
deriving DecidableEq, Repr

/-- Modelled from the spec: `polyfitMatlab` of `matlab_forking.py` is not
under `src/`; spec 4.1 `fit_line`: degree-1 least squares on the
centred-and-scaled abscissa `(x - mean x) / std x`, returning the
coefficients in that normalised basis together with `(center, scale)`.
Fewer than 2 distinct `x` values, or a NaN ordinate, yields NaN
coefficients and never raises. -/
def polyfitMatlab (sqrtFn : ℚ → ℚ) (x : List ℚ) (y : List Val) : PolyFit :=
  let mu0 := meanQ x
  let mu1 := stdQ sqrtFn x
  let muV : Val × Val := (some mu0, some mu1)
  if x.dedup.length < 2 ∨ y.any (fun v => v.isNone) then
    { p := (none, none), S := (), mu := muV }
  else
    let ys := y.map (fun v => v.getD 0)
    let z := x.map (fun a => (a - mu0) / mu1)
    let n : ℚ := (x.length : ℚ)
    let szy := ((z.zip ys).map (fun q => q.1 * q.2)).sum
    let sz := z.sum
    let sy := ys.sum
    let szz := (z.map (fun a => a * a)).sum
    let denom := n * szz - sz * sz
    if denom = 0 then { p := (none, none), S := (), mu := muV }
    else
      let slope := (n * szy - sz * sy) / denom
      let intercept := (sy - slope * sz) / n
      { p := (some slope, some intercept), S := (), mu := muV }

/-- Modelled from the spec: `polyvalMatlab` of `matlab_forking.py` is not
under `src/`; spec 4.1 `evaluate_line`: evaluates the fitted line at the
given abscissas after the same centering and scaling, and also returns a
residual-based scale factor (unused by any claim, modelled as NaN). -/
def polyvalMatlab (p : Val × Val) (x : List ℚ) (mu : Val × Val) :
    List Val × Val :=
  (x.map (fun a => vAdd (vMul p.1 (vDiv (vSub (some a) mu.1) mu.2)) p.2), none)

/-- Modelled from the spec: `corrMatlab` of `matlab_forking.py` is not
under `src/`; spec 4.1 `pearson_r2`: squared Pearson correlation between
observed and predicted ordinates (the source reads entry `[0][0]` of a
correlation matrix; the embedding folds that indexing into the scalar).
Degenerate input (a NaN, or zero variance) yields NaN. -/
def corrMatlab (obs pred : List Val) : Val × Unit :=
  if obs.any (fun v => v.isNone) ∨ pred.any (fun v => v.isNone) then (none, ())
  else
    let xs := obs.map (fun v => v.getD 0)
    let ys := pred.map (fun v => v.getD 0)
    let n : ℚ := (xs.length : ℚ)
    let sx := xs.sum
    let sy := ys.sum
    let sxy := ((xs.zip ys).map (fun q => q.1 * q.2)).sum
    let sxx := (xs.map (fun a => a * a)).sum
    let syy := (ys.map (fun a => a * a)).sum
    let dx := n * sxx - sx * sx
    let dy := n * syy - sy * sy
    if dx * dy = 0 then (none, ())
    else (some ((n * sxy - sx * sy) ^ 2 / (dx * dy)), ())

/-- De-normalised slope of a fitted line: the normalised slope coefficient
divided by the centering scale factor, giving slope per raw sample. -/
def denormSlope (p mu : Val × Val) : Val := vDiv p.1 mu.2

/-- De-normalised intercept of a fitted line in raw coordinate space:
`b = p1 - m * mu0` where `m` is the de-normalised slope. -/
def denormIntercept (p mu : Val × Val) : Val :=
  vSub p.2 (vMul (denormSlope p mu) mu.1)

/-- Modelled from the spec: `get_intersection` of `matlab_forking.py` is
not under `src/`; spec 4.2: back-transform both fitted lines to raw index
space, solve `x* = (b2 - b1) / (m1 - m2)`, `y* = m1 * x* + b1`, and each
x-intercept by solving `y = 0`; in the degenerate case of equal
de-normalised slopes (parallel flanks) return NaN for the intersection
point and for both x-intercepts, and never raise. -/
def get_intersection (pL pR muL muR : Val × Val) : Val × Val × Val × Val :=
  let m1 := denormSlope pL muL
  let b1 := denormIntercept pL muL
  let m2 := denormSlope pR muR
  let b2 := denormIntercept pR muR
  if m1 = m2 then (none, none, none, none)
  else
    let xI := vDiv (vSub b2 b1) (vSub m1 m2)
    let yI := vAdd (vMul m1 xI) b1
    let lX := vDiv (vNeg b1) m1
    let rX := vDiv (vNeg b2) m2
    (xI, yI, lX, rX)

/-- Modelled from the spec: `get_line_intersection_slope` of
`zero_crossing.py` is not under `src/`; spec 4.2 derives each flank slope
from the intersection point and that flank's x-intercept (the line through
`(xIntercept, 0)` and `(xI, yI)`). -/
def get_line_intersection_slope (xI yI lX rX : Val) : Val × Val :=
  (vDiv yI (vSub xI lX), vDiv yI (vSub xI rX))

/-- NumPy-style indexing of the signal array; an out-of-range index would
raise in Python, but no claim exercises that path, so it is modelled as
NaN. -/
def signalAt (signal : List Val) (i : ℕ) : Val := (signal.get? i).getD none

/-- The 14 outputs of `lines_intersection_matlabx`, in source order. -/
structure LinesFit where
  leftSlope : Val
  rightSlope : Val
  averLeftVelocity : Val
  averRightVelocity : Val
  rightR2 : Val
  leftR2 : Val
  xIntersect : Val
  yIntersect : Val
  leftXIntercept : Val
  rightXIntercept : Val
  xLineCross_l : Val
  yLineCross_l : Val
  xLineCross_r : Val
  yLineCross_r : Val
deriving DecidableEq, Repr

/-- Embedding of `lines_intersection_matlabx`
(`src/pyear/matlab_fork/line_intersection_matlab.py`): gather the flank
ordinates, fit each flank with `polyfitMatlab`, score each fit with
`corrMatlab`, intersect the two fitted lines with `get_intersection`,
recover the flank slopes, and derive the average flank velocities as
`p[0] / mu[1]`. -/
def lines_intersection_matlabx (sqrtFn : ℚ → ℚ) (signal : List Val)
    (xRight xLeft : List ℕ) : LinesFit :=
  let yRight := xRight.map (signalAt signal)
  let yLeft := xLeft.map (signalAt signal)
  let fLeft := polyfitMatlab sqrtFn (xLeft.map (fun i => (i : ℚ))) yLeft
  let yPred := (polyvalMatlab fLeft.p (xLeft.map (fun i => (i : ℚ))) fLeft.mu).1
  let leftR2 := (corrMatlab yLeft yPred).1
  let fRight := polyfitMatlab sqrtFn (xRight.map (fun i => (i : ℚ))) yRight
  let yPredRight := (polyvalMatlab fRight.p (xRight.map (fun i => (i : ℚ))) fRight.mu).1
  let rightR2 := (corrMatlab yRight yPredRight).1
  let inter := get_intersection fLeft.p fRight.p fLeft.mu fRight.mu
  let xIntersect := inter.1
  let yIntersect := inter.2.1
  let leftXIntercept := inter.2.2.1
  let rightXIntercept := inter.2.2.2
  let slopes := get_line_intersection_slope xIntersect yIntersect
    leftXIntercept rightXIntercept
  { leftSlope := slopes.1
    rightSlope := slopes.2
    averLeftVelocity := vDiv fLeft.p.1 fLeft.mu.2
    averRightVelocity := vDiv fRight.p.1 fRight.mu.2
    rightR2 := rightR2
    leftR2 := leftR2
    xIntersect := xIntersect
    yIntersect := yIntersect
    leftXIntercept := leftXIntercept
    rightXIntercept := rightXIntercept
    xLineCross_l := none
    yLineCross_l := none
    xLineCross_r := none
    yLineCross_r := none }

/-- A Python exception, identified by its message. -/
abbrev PyError := String

/-- One row of the blink-candidate DataFrame.  The index columns named by
the source are explicit fields; every other column of the table (for
example `blink_id`) lives in `extra`. -/
structure Row where
  seg_id : Val
  start_blink : Val
  end_blink : Val
  outer_start : Val
  outer_end : Val
  left_zero : Val
  right_zero : Val
  extra : List (String × Val)
deriving DecidableEq, Repr

/-- The blink-candidate DataFrame: its rows, plus whether the optional
`right_zero` column is present (column presence is a property of the
frame, not of a row). -/
structure Frame where
  hasRightZero : Bool
  rows : List Row
deriving DecidableEq, Repr

/-- One `mne.Raw` segment: its sampling rate (metadata) and its named
channels of sample data. -/
structure Segment where
  sfreq : ℚ
  channels : List (String × List Val)
deriving DecidableEq, Repr

/-- Embedding of `raw.get_data(picks=channel)[0]`: the one-channel signal array. -/
def Segment.getData (s : Segment) (ch : String) : List Val :=
  match s.channels.find? (fun c => c.1 = ch) with
  | some c => c.2
  | none => []

/-- The parameter dictionary (`base_fraction`, `shut_amp_fraction`, ...). -/
abbrev Params := List (String × Val)

/-- A generic pandas table, used for the fitter result frame
(`fitter.frame_blinks`) and for the rows of the property table. -/
abbrev Table := List (List (String × Val))

/-- One row of the final output table: the property fields produced by
`BlinkProperties` plus the `seg_id` column the orchestrator assigns. -/
structure OutRow where
  seg_id : ℕ
  fields : List (String × Val)
deriving DecidableEq, Repr

/-- Observable per-segment processing events, in program order:
signal extraction, the fit call, and the property-computation call
(recording the sampling rate it receives). -/
inductive Event where
  | sigExtract (segId : ℕ)
  | fitCall (segId : ℕ)
  | propsCall (segId : ℕ) (sfreq : ℚ)
deriving DecidableEq, Repr

/-- The call context of `compute_segment_blink_properties`: the blink
fitter (`FitBlinks` construction plus `dprocess_segment_raw`, which may
raise) and the property calculator (`BlinkProperties`, which may raise),
both functions of exactly the data the source passes them, together with
the remaining scalar arguments. -/
structure Ctx where
  fitImpl : List Val → List Row → Params → Bool → Except PyError Table
  propsImpl : List Val → Table → ℚ → Params → Bool → Except PyError Table
  params : Params
  channel : String
  runFit : Bool

/-- Everything observable about one call of the orchestrator: the value
returned (or the exception propagated), the per-segment event trace (the
trace survives an exception, as logging does in Python), and the state of
the caller's `blink_df` after the call. -/
structure Outcome where
  result : Except PyError (List OutRow)
  trace : List Event
  blinkDfAfter : Frame

/-- Embedding of `blink_df["seg_id"] == seg_id`: pandas elementwise comparison of the
`seg_id` column with the loop index; a NaN cell compares unequal. -/
def segMatch (r : Row) (i : ℕ) : Bool := r.seg_id = some (i : ℚ)

/-- Models `DataFrame.copy()`: the selected rows get independent storage, so the
column assignments the orchestrator performs next write to the copy and
never to the source frame. -/
def pandasCopy (rows : List Row) : List Row := rows

/-- Models `Series.fillna(d)`: replace a missing value by `d`. -/
def fillna (d : ℚ) : Val → Val
  | none => some d
  | some q => some q

/-- Truncation of a rational toward zero, the C-cast semantics of
`astype(int)` on a float column. -/
def truncQ (q : ℚ) : ℤ := q.num.tdiv (q.den : ℤ)

/-- Models `Series.astype(int)` on one cell: a non-finite value (NaN) raises
`ValueError`; a finite value is truncated toward zero. -/
def astypeInt : Val → Except PyError Val
  | none => .error "cannot convert non-finite values to integer"
  | some q => .ok (some ((truncQ q : ℤ) : ℚ))

/-- The orchestrator's type coercion of one candidate row
(`segment_blink_properties.py` lines 81-87): `start_blink`, `end_blink`,
`outer_start`, `outer_end` and `left_zero` are coerced to integer, and
when the `right_zero` column is present its missing values are filled
with the sentinel -1 before the integer coercion; no other field is
touched. -/
def coerceRow (hasRZ : Bool) (r : Row) : Except PyError Row := do
  let sb ← astypeInt r.start_blink
  let eb ← astypeInt r.end_blink
  let os ← astypeInt r.outer_start
  let oe ← astypeInt r.outer_end
  let lz ← astypeInt r.left_zero
  let rz ← if hasRZ then astypeInt (fillna (-1) r.right_zero)
           else .ok r.right_zero
  .ok { r with start_blink := sb, end_blink := eb, outer_start := os,
               outer_end := oe, left_zero := lz, right_zero := rz }

/-- The columnwise coercion applied to a whole working copy of candidate
rows. -/
def coerceRows (hasRZ : Bool) (rows : List Row) : Except PyError (List Row) :=
  rows.mapM (coerceRow hasRZ)

/-- Embedding of `segments[0].info["sfreq"] if segments else 0.0`. -/
def headSfreq : List Segment → ℚ
  | [] => 0
  | s :: _ => s.sfreq

/-- The per-segment loop of `compute_segment_blink_properties`
(`segment_blink_properties.py` lines 79-108), with the loop index made
explicit.  For each segment: select and copy its candidate rows, coerce
the index columns (an `astype` failure propagates), skip the segment if
it has no rows, extract the channel signal, run the fitter with a
caught-and-logged failure path that skips the segment, run the property
calculator (whose failure propagates), and append the property rows
tagged with the segment id. -/
def goSegments (ctx : Ctx) (sfreq : ℚ) (frame : Frame) :
    ℕ → List Segment → Except PyError (List OutRow) × List Event × Frame
  | _, [] => (.ok [], [], frame)
  | i, seg :: rest =>
      match coerceRows frame.hasRightZero
          (pandasCopy (frame.rows.filter (fun r => segMatch r i))) with
      | .error e => (.error e, [], frame)
      | .ok rows =>
        if rows.isEmpty then goSegments ctx sfreq frame (i + 1) rest
        else
          let signal := seg.getData ctx.channel
          match ctx.fitImpl signal rows ctx.params ctx.runFit with
          | .error _ =>
              let rec' := goSegments ctx sfreq frame (i + 1) rest
              (rec'.1, Event.sigExtract i :: Event.fitCall i :: rec'.2.1,
               rec'.2.2)
          | .ok fr =>
              match ctx.propsImpl signal fr sfreq ctx.params ctx.runFit with
              | .error e =>
                  (.error e,
                   [Event.sigExtract i, Event.fitCall i,
                    Event.propsCall i sfreq], frame)
              | .ok props =>
                  let rec' := goSegments ctx sfreq frame (i + 1) rest
                  (rec'.1.map (fun tbl =>
                     props.map (fun fields => OutRow.mk i fields) ++ tbl),
                   Event.sigExtract i :: Event.fitCall i ::
                     Event.propsCall i sfreq :: rec'.2.1,
                   rec'.2.2)

/-- Embedding of `compute_segment_blink_properties`
(`src/pyear/pyblinkers/segment_blink_properties.py`): an empty
blink-candidate table returns an empty table immediately; otherwise the
sampling rate is read from the first segment and the per-segment loop
runs.  The concatenation of zero per-segment tables is the empty table,
which coincides with the `if not all_props` early return of the source. -/
def compute_segment_blink_properties (ctx : Ctx) (segments : List Segment)
    (blink_df : Frame) : Outcome :=
  if blink_df.rows.isEmpty then
    { result := .ok [], trace := [], blinkDfAfter := blink_df }
  else
    let sfreq := headSfreq segments
    let r := goSegments ctx sfreq blink_df 0 segments
    { result := r.1, trace := r.2.1, blinkDfAfter := r.2.2 }

/-- The rows one segment contributes to the final table when no uncaught
exception interrupts the run: empty when the segment has no candidate
rows, when its coercion or fit fails, or when the property calculator
fails; otherwise the property rows tagged with the segment id. -/
def segContrib (ctx : Ctx) (sfreq : ℚ) (frame : Frame) (i : ℕ)
    (seg : Segment) : List OutRow :=
  match coerceRows frame.hasRightZero
      (pandasCopy (frame.rows.filter (fun r => segMatch r i))) with
  | .error _ => []
  | .ok rows =>
    if rows.isEmpty then []
    else
      let signal := seg.getData ctx.channel
      match ctx.fitImpl signal rows ctx.params ctx.runFit with
      | .error _ => []
      | .ok fr =>
        match ctx.propsImpl signal fr sfreq ctx.params ctx.runFit with
        | .error _ => []
        | .ok props => props.map (fun fields => OutRow.mk i fields)

/-- Concatenation of the per-segment contributions, starting at loop
index `i`. -/
def contribsFrom (ctx : Ctx) (sfreq : ℚ) (frame : Frame) :
    ℕ → List Segment → List OutRow
  | _, [] => []
  | i, seg :: rest =>
      segContrib ctx sfreq frame i seg ++
        contribsFrom ctx sfreq frame (i + 1) rest

/-- The sub-table of output rows tagged with segment id `i`; a run that
ended in an exception produced no output rows at all. -/
def blockOf (res : Except PyError (List OutRow)) (i : ℕ) : List OutRow :=
  match res with
  | .error _ => []
  | .ok t => t.filter (fun row => row.seg_id = i)

/-- Two segment lists agree elementwise except possibly at loop index
`k`, counting positions from `j`. -/
def eqExceptAt (k : ℕ) : ℕ → List Segment → List Segment → Prop
  | _, [], [] => True
  | j, a :: as, b :: bs => (j = k ∨ a = b) ∧ eqExceptAt k (j + 1) as bs
  | _, _, _ => False

/-- A candidate row whose `seg_id` cell equals some loop position below
`n` (the number of segments); only such rows can ever be selected by the
per-segment filter. -/
def inRangeSegId (n : ℕ) (r : Row) : Bool :=
  match r.seg_id with
  | none => false
  | some q => decide (0 ≤ q.num) && (q.den == 1) && decide (q.num < (n : ℤ))

/-- The blink-candidate frame restricted to rows whose `seg_id` matches
some segment position. -/
def inRangeFrame (n : ℕ) (df : Frame) : Frame :=
  { hasRightZero := df.hasRightZero, rows := df.rows.filter (inRangeSegId n) }

deriving instance DecidableEq for Except

/-- A blink-candidate row with the given `seg_id` cell, integer index
cells, a missing `right_zero` and one extra column. -/
def sampleRow (q : ℚ) : Row :=
  { seg_id := some q, start_blink := some 1, end_blink := some 2,
    outer_start := some 0, outer_end := some 3, left_zero := some 1,
    right_zero := none, extra := [("blink_id", some 7)] }

/-- A candidate table with one row for segment 0 and one for segment 1. -/
def sampleDf : Frame :=
  { hasRightZero := true, rows := [sampleRow 0, sampleRow 1] }

/-- A context whose property calculator raises exactly on the signal of
the first sample segment; the fitter always succeeds. -/
def cexCtx : Ctx :=
  { fitImpl := fun _ _ _ _ => .ok [[]]
    propsImpl := fun sig _ _ _ _ =>
      if sig = [some 1] then .error "props failed"
      else .ok [[("duration_base", some 9)]]
    params := [("base_fraction", some 1)]
    channel := "C"
    runFit := false }

/-- Segment whose channel `C` carries the sample value 1. -/
def cexSeg0 : Segment := { sfreq := 2, channels := [("C", [some 1])] }

/-- Segment whose channel `C` carries the sample value 5. -/
def cexSeg1 : Segment := { sfreq := 2, channels := [("C", [some 5])] }

/-- A context whose fitter raises exactly on an all-NaN signal; the
property calculator never raises. -/
def fitErrCtx : Ctx :=
  { fitImpl := fun sig _ _ _ =>
      if sig = [none] then .error "fit blew up" else .ok [[]]
    propsImpl := fun _ _ _ _ _ => .ok [[("duration_base", some 9)]]
    params := [("base_fraction", some 1)]
    channel := "C"
    runFit := false }

/-- Segment whose channel `C` is all-NaN. -/
def nanSeg : Segment := { sfreq := 2, channels := [("C", [none])] }

/-- A context with a total (never-raising) fitter and property
calculator, the property rows recording nothing signal-dependent. -/
def isoCtx : Ctx :=
  { fitImpl := fun sig _ _ _ =>
      if sig.any (fun v => v.isNone) then .error "nan in fit range"
      else .ok [[]]
    propsImpl := fun _ _ _ _ _ => .ok [[("duration_base", some 4)]]
    params := [("base_fraction", some 1)]
    channel := "C"
    runFit := false }

/-- Segment with sampling rate 5, used to show that the rate of a later
segment is ignored. -/
def cexSeg2 : Segment := { sfreq := 5, channels := [("C", [some 5])] }

/-- The rational 7/2, written as an explicit reduced fraction so that it
evaluates inside kernel reduction. -/
def sevenHalves : ℚ := Rat.mk' 7 2 (by norm_num) (by norm_num)

/-- A candidate row with a fractional `start_blink`, exercising the
truncation performed by the integer coercion. -/
def fracRow : Row :=
  { seg_id := some 0, start_blink := some sevenHalves, end_blink := some 2,
    outer_start := some 0, outer_end := some 3, left_zero := some 1,
    right_zero := none, extra := [("blink_id", some 7)] }

/-- The expected result of coercing `fracRow` with a `right_zero` column
present: indices truncated to integers, the missing `right_zero` filled
with -1, everything else untouched. -/
def fracRowCoerced : Row :=
  { seg_id := some 0, start_blink := some 3, end_blink := some 2,
    outer_start := some 0, outer_end := some 3, left_zero := some 1,
    right_zero := some (-1), extra := [("blink_id", some 7)] }

theorem goSegments_frame (ctx : Ctx) (sfreq : ℚ) (frame : Frame)
    (l : List Segment) : ∀ j, (goSegments ctx sfreq frame j l).2.2 = frame := by
  induction l with
  | nil => intro _; rfl
  | cons a rest ih =>
    intro j
    simp only [goSegments]
    split
    · rfl
    · split
      · exact ih (j + 1)
      · split
        · exact ih (j + 1)
        · split
          · rfl
          · exact ih (j + 1)

/-- C4: `compute_segment_blink_properties` never mutates its input
blink-candidate table: the state of the caller's `blink_df` after any
call (all cells of all columns, and the column layout) is exactly the
state before it, because each segment's working rows are an independent
copy (`pandasCopy`) taken before the type coercion writes. -/
theorem c4_blink_df_not_mutated (ctx : Ctx) (segments : List Segment)
    (blink_df : Frame) :
    (compute_segment_blink_properties ctx segments blink_df).blinkDfAfter
      = blink_df := by
  unfold compute_segment_blink_properties
  split
  · rfl
  · exact goSegments_frame ctx (headSfreq segments) blink_df segments 0

/-- C3: if the blink-candidate table is empty,
`compute_segment_blink_properties` returns an empty table immediately,
with an empty event trace: no segment is visited, so no signal
extraction, no fitting and no property computation occurs. -/
theorem c3_empty_table_early_return (ctx : Ctx) (segments : List Segment)
    (blink_df : Frame) (h : blink_df.rows = []) :
    compute_segment_blink_properties ctx segments blink_df
      = { result := .ok [], trace := [], blinkDfAfter := blink_df } := by
  unfold compute_segment_blink_properties
  rw [if_pos (by simp [h])]

/-- Witness for C3 at a concrete empty table. -/
theorem c3_empty_table_early_return_witness :
    (Frame.rows { hasRightZero := true, rows := [] } = []) ∧
    compute_segment_blink_properties cexCtx [cexSeg0, cexSeg1]
        { hasRightZero := true, rows := [] }
      = { result := .ok [], trace := [],
          blinkDfAfter := { hasRightZero := true, rows := [] } } :=
  ⟨rfl, c3_empty_table_early_return cexCtx [cexSeg0, cexSeg1] _ rfl⟩

/-- C5: for every pair of fitted flank lines with equal de-normalised
slopes (parallel flanks), the line-intersection solver returns NaN for
the intersection point and for both x-intercepts; being a total
function, it never raises. -/
theorem c5_parallel_flanks_nan (pL pR muL muR : Val × Val)
    (h : denormSlope pL muL = denormSlope pR muR) :
    get_intersection pL pR muL muR = (none, none, none, none) := by
  unfold get_intersection
  rw [if_pos h]

/-- Witness for C5: two distinct parallel lines (equal slope coefficient
and scale, different intercepts and centers). -/
theorem c5_parallel_flanks_nan_witness :
    (denormSlope (some 2, some 0) (some 0, some 1)
       = denormSlope (some 2, some 5) (some 3, some 1)) ∧
    get_intersection (some 2, some 0) (some 2, some 5) (some 0, some 1)
        (some 3, some 1) = (none, none, none, none) :=
  ⟨rfl, c5_parallel_flanks_nan (some 2, some 0) (some 2, some 5)
    (some 0, some 1) (some 3, some 1) rfl⟩

/-- C6: for every fitted blink, the average left (resp. right) flank
velocity returned by `lines_intersection_matlabx` equals the fitted
slope coefficient of that flank divided by the centering scale factor of
the same fit: `averLeftVelocity = pLeft[0] / muLeft[1]` and
`averRightVelocity = pRight[0] / muRight[1]`. -/
theorem c6_average_velocity_is_slope_over_scale (sqrtFn : ℚ → ℚ)
    (signal : List Val) (xRight xLeft : List ℕ) :
    (lines_intersection_matlabx sqrtFn signal xRight xLeft).averLeftVelocity
      = vDiv (polyfitMatlab sqrtFn (xLeft.map (fun i => (i : ℚ)))
                (xLeft.map (signalAt signal))).p.1
             (polyfitMatlab sqrtFn (xLeft.map (fun i => (i : ℚ)))
                (xLeft.map (signalAt signal))).mu.2
    ∧ (lines_intersection_matlabx sqrtFn signal xRight xLeft).averRightVelocity
      = vDiv (polyfitMatlab sqrtFn (xRight.map (fun i => (i : ℚ)))
                (xRight.map (signalAt signal))).p.1
             (polyfitMatlab sqrtFn (xRight.map (fun i => (i : ℚ)))
                (xRight.map (signalAt signal))).mu.2 :=
  ⟨rfl, rfl⟩

/-- C7: `compute_segment_blink_properties` is deterministic — two calls
with equal inputs (segments, blink table, and the same fitter, property
calculator, params, channel and run_fit flag) return equal outcomes.
Equality of `Val` cells is NaN-aware by construction: NaN is `none`, and
`none = none` holds. -/
theorem c7_deterministic (ctx ctx2 : Ctx) (segments segments2 : List Segment)
    (blink_df blink_df2 : Frame) (hc : ctx = ctx2) (hs : segments = segments2)
    (hd : blink_df = blink_df2) :
    compute_segment_blink_properties ctx segments blink_df
      = compute_segment_blink_properties ctx2 segments2 blink_df2 := by
  rw [hc, hs, hd]

/-- Witness for C7 at concrete inputs. -/
theorem c7_deterministic_witness :
    compute_segment_blink_properties isoCtx [cexSeg0, cexSeg1] sampleDf
      = compute_segment_blink_properties isoCtx [cexSeg0, cexSeg1] sampleDf :=
  c7_deterministic isoCtx isoCtx [cexSeg0, cexSeg1] [cexSeg0, cexSeg1]
    sampleDf sampleDf rfl rfl rfl

theorem goSegments_propsCall_sfreq (ctx : Ctx) (sfreq : ℚ) (frame : Frame)
    (l : List Segment) : ∀ j i q,
    Event.propsCall i q ∈ (goSegments ctx sfreq frame j l).2.1 → q = sfreq := by
  induction l with
  | nil => intro j i q h; simp [goSegments] at h
  | cons a rest ih =>
    intro j i q h
    simp only [goSegments] at h
    split at h
    · simp at h
    · split at h
      · exact ih (j + 1) i q h
      · split at h
        · simp only [List.mem_cons] at h
          rcases h with h | h | h
          · exact absurd h (by simp)
          · exact absurd h (by simp)
          · exact ih (j + 1) i q h
        · split at h
          · simp only [List.mem_cons] at h
            rcases h with h | h | h | h
            · exact absurd h (by simp)
            · exact absurd h (by simp)
            · cases h; rfl
            · simp at h
          · simp only [List.mem_cons] at h
            rcases h with h | h | h | h
            · exact absurd h (by simp)
            · exact absurd h (by simp)
            · cases h; rfl
            · exact ih (j + 1) i q h

/-- C9: for every non-empty segments sequence, the sampling rate handed
to every property computation is the first segment's rate
(`segments[0].info["sfreq"]`): a later segment with a different rate
still has its blink durations computed with the first segment's rate. -/
theorem c9_sfreq_from_first_segment (ctx : Ctx) (segments : List Segment)
    (blink_df : Frame) (s0 : Segment) (rest : List Segment)
    (hseg : segments = s0 :: rest) (i : ℕ) (q : ℚ)
    (hmem : Event.propsCall i q
      ∈ (compute_segment_blink_properties ctx segments blink_df).trace) :
    q = s0.sfreq := by
  subst hseg
  unfold compute_segment_blink_properties at hmem
  split at hmem
  · simp at hmem
  · exact goSegments_propsCall_sfreq ctx (headSfreq (s0 :: rest)) blink_df
      (s0 :: rest) 0 i q hmem

/-- Witness for C9: two segments with different sampling rates (2 and 5);
the property computation of segment 1 still receives rate 2. -/
theorem c9_sfreq_from_first_segment_witness :
    (Event.propsCall 1 2
      ∈ (compute_segment_blink_properties isoCtx [cexSeg0, cexSeg2]
          sampleDf).trace) ∧ (2 : ℚ) = cexSeg0.sfreq :=
  ⟨by decide, c9_sfreq_from_first_segment isoCtx [cexSeg0, cexSeg2] sampleDf
    cexSeg0 [cexSeg2] rfl 1 2 (by decide)⟩

/-- C8: the per-row content of the type coercion the orchestrator applies
to a segment's candidate rows before dispatching them to the fitter
(`goSegments` applies `coerceRows` to the working copy and hands the
result to `fitImpl`): `start_blink`, `end_blink`, `outer_start`,
`outer_end` and `left_zero` are coerced to integer; when the `right_zero`
column is present its missing value is filled with the sentinel -1 and
then coerced to integer, and when it is absent it is untouched; no other
field of the row (`seg_id` and every extra column) is altered. -/
theorem c8_coercion_exact_fields (hRZ : Bool) (r r2 : Row)
    (h : coerceRow hRZ r = .ok r2) :
    astypeInt r.start_blink = .ok r2.start_blink
  ∧ astypeInt r.end_blink = .ok r2.end_blink
  ∧ astypeInt r.outer_start = .ok r2.outer_start
  ∧ astypeInt r.outer_end = .ok r2.outer_end
  ∧ astypeInt r.left_zero = .ok r2.left_zero
  ∧ (hRZ = true → astypeInt (fillna (-1) r.right_zero) = .ok r2.right_zero)
  ∧ (hRZ = false → r2.right_zero = r.right_zero)
  ∧ r2.seg_id = r.seg_id ∧ r2.extra = r.extra := by
  unfold coerceRow at h
  cases hRZ with
  | true =>
    cases h1 : astypeInt r.start_blink with
    | error e => simp [h1, Bind.bind, Except.bind] at h
    | ok sb =>
    cases h2 : astypeInt r.end_blink with
    | error e => simp [h1, h2, Bind.bind, Except.bind] at h
    | ok eb =>
    cases h3 : astypeInt r.outer_start with
    | error e => simp [h1, h2, h3, Bind.bind, Except.bind] at h
    | ok os =>
    cases h4 : astypeInt r.outer_end with
    | error e => simp [h1, h2, h3, h4, Bind.bind, Except.bind] at h
    | ok oe =>
    cases h5 : astypeInt r.left_zero with
    | error e => simp [h1, h2, h3, h4, h5, Bind.bind, Except.bind] at h
    | ok lz =>
    cases h6 : astypeInt (fillna (-1) r.right_zero) with
    | error e => simp [h1, h2, h3, h4, h5, h6, Bind.bind, Except.bind] at h
    | ok rz =>
      simp only [h1, h2, h3, h4, h5, h6, Bind.bind, Except.bind,
        if_true, Except.ok.injEq] at h
      subst h
      exact ⟨rfl, rfl, rfl, rfl, rfl, fun _ => rfl,
        fun hf => Bool.noConfusion hf, rfl, rfl⟩
  | false =>
    cases h1 : astypeInt r.start_blink with
    | error e => simp [h1, Bind.bind, Except.bind] at h
    | ok sb =>
    cases h2 : astypeInt r.end_blink with
    | error e => simp [h1, h2, Bind.bind, Except.bind] at h
    | ok eb =>
    cases h3 : astypeInt r.outer_start with
    | error e => simp [h1, h2, h3, Bind.bind, Except.bind] at h
    | ok os =>
    cases h4 : astypeInt r.outer_end with
    | error e => simp [h1, h2, h3, h4, Bind.bind, Except.bind] at h
    | ok oe =>
    cases h5 : astypeInt r.left_zero with
    | error e => simp [h1, h2, h3, h4, h5, Bind.bind, Except.bind] at h
    | ok lz =>
      simp only [h1, h2, h3, h4, h5, Bind.bind, Except.bind,
        if_false, Bool.false_eq_true, Except.ok.injEq] at h
      subst h
      exact ⟨rfl, rfl, rfl, rfl, rfl, fun ht => Bool.noConfusion ht,
        fun _ => rfl, rfl, rfl⟩

/-- Witness for C8 on a concrete row: `start_blink = 7/2` truncates to 3,
the missing `right_zero` becomes -1, and `seg_id` and the extra
`blink_id` column are untouched. -/
theorem c8_coercion_exact_fields_witness :
    astypeInt fracRow.start_blink = .ok fracRowCoerced.start_blink
  ∧ astypeInt fracRow.end_blink = .ok fracRowCoerced.end_blink
  ∧ astypeInt fracRow.outer_start = .ok fracRowCoerced.outer_start
  ∧ astypeInt fracRow.outer_end = .ok fracRowCoerced.outer_end
  ∧ astypeInt fracRow.left_zero = .ok fracRowCoerced.left_zero
  ∧ (true = true → astypeInt (fillna (-1) fracRow.right_zero)
      = .ok fracRowCoerced.right_zero)
  ∧ (true = false → fracRowCoerced.right_zero = fracRow.right_zero)
  ∧ fracRowCoerced.seg_id = fracRow.seg_id
  ∧ fracRowCoerced.extra = fracRow.extra :=
  c8_coercion_exact_fields true fracRow fracRowCoerced (by decide)

theorem goSegments_result_of_total (ctx : Ctx) (sfreq : ℚ) (frame : Frame)
    (hprops : ∀ sig fr sf p rf, (ctx.propsImpl sig fr sf p rf).isOk = true)
    (l : List Segment) : ∀ j,
    (∀ m, m < l.length → (coerceRows frame.hasRightZero
        (pandasCopy (frame.rows.filter (fun r => segMatch r (j + m))))).isOk
          = true) →
    (goSegments ctx sfreq frame j l).1
      = .ok (contribsFrom ctx sfreq frame j l) := by
  induction l with
  | nil => intro j _; rfl
  | cons a rest ih =>
    intro j hco
    have hc0 := hco 0 (by simp)
    rw [Nat.add_zero] at hc0
    have hrest : ∀ m, m < rest.length → (coerceRows frame.hasRightZero
        (pandasCopy (frame.rows.filter
          (fun r => segMatch r (j + 1 + m))))).isOk = true := by
      intro m hm
      have hh := hco (m + 1) (by simpa using Nat.succ_lt_succ hm)
      rwa [show j + (m + 1) = j + 1 + m by omega] at hh
    cases hcc : coerceRows frame.hasRightZero
        (pandasCopy (frame.rows.filter (fun r => segMatch r j))) with
    | error e => rw [hcc] at hc0; simp [Except.isOk, Except.toBool] at hc0
    | ok rows =>
      cases hemp : rows.isEmpty with
      | true =>
        simp only [goSegments, contribsFrom, segContrib, hcc, hemp]
        exact ih (j + 1) hrest
      | false =>
        cases hf : ctx.fitImpl (a.getData ctx.channel) rows ctx.params
            ctx.runFit with
        | error e =>
          simp only [goSegments, contribsFrom, segContrib, hcc, hemp, hf]
          rw [ih (j + 1) hrest]
          simp
        | ok fr =>
          have hp := hprops (a.getData ctx.channel) fr sfreq ctx.params
            ctx.runFit
          cases hpp : ctx.propsImpl (a.getData ctx.channel) fr sfreq
              ctx.params ctx.runFit with
          | error e => rw [hpp] at hp; simp [Except.isOk, Except.toBool] at hp
          | ok props =>
            simp only [goSegments, contribsFrom, segContrib, hcc, hemp, hf,
              hpp]
            rw [ih (j + 1) hrest]
            simp [Except.map]

theorem contribsFrom_nil_rows (ctx : Ctx) (sfreq : ℚ) (hRZ : Bool)
    (l : List Segment) : ∀ j, contribsFrom ctx sfreq ⟨hRZ, []⟩ j l = [] := by
  induction l with
  | nil => intro _; rfl
  | cons a rest ih =>
    intro j
    have h1 : segContrib ctx sfreq ⟨hRZ, []⟩ j a = [] := rfl
    simp only [contribsFrom, h1, List.nil_append]
    exact ih (j + 1)

/-- C1 counterexample: with a property calculator that raises on segment 0
(and would succeed on segment 1, as the last conjunct shows), the whole
call propagates the exception instead of dropping only segment 0 — the
trace stops at segment 0's property computation and no row of segment 1
is ever returned, contradicting the claim that an exception during
property-computation skips only that segment. -/
theorem c1_props_error_aborts_batch :
    (compute_segment_blink_properties cexCtx [cexSeg0, cexSeg1]
        sampleDf).result = .error "props failed"
  ∧ (compute_segment_blink_properties cexCtx [cexSeg0, cexSeg1]
        sampleDf).trace
      = [Event.sigExtract 0, Event.fitCall 0, Event.propsCall 0 2]
  ∧ cexCtx.propsImpl [some 5] [[]] 2 cexCtx.params false
      = .ok [[("duration_base", some 9)]] :=
  ⟨by decide, by decide, by decide⟩

/-- C1 (amended): provided the property calculator raises no exception
(and the type coercions succeed), an exception raised during the
*fitting* of one segment's blinks is caught, the segment is dropped, and
the call still returns the property rows of every other segment: the
result is exactly the concatenation of the per-segment contributions, in
which a segment whose fit raised contributes nothing. -/
theorem c1_fit_exception_skips_only_that_segment (ctx : Ctx)
    (segments : List Segment) (blink_df : Frame)
    (hprops : ∀ sig fr sf p rf, (ctx.propsImpl sig fr sf p rf).isOk = true)
    (hco : ∀ i, i < segments.length → (coerceRows blink_df.hasRightZero
        (blink_df.rows.filter (fun r => segMatch r i))).isOk = true) :
    (compute_segment_blink_properties ctx segments blink_df).result
      = .ok (contribsFrom ctx (headSfreq segments) blink_df 0 segments) := by
  unfold compute_segment_blink_properties
  split
  · next hemp =>
    rcases blink_df with ⟨hRZ, rows⟩
    simp only [List.isEmpty_iff] at hemp
    subst hemp
    rw [contribsFrom_nil_rows]
  · exact goSegments_result_of_total ctx (headSfreq segments) blink_df hprops
      segments 0 (fun m hm => by rw [Nat.zero_add]; exact hco m hm)

/-- Witness for the amended C1: the fitter raises on segment 0 (its
signal is all-NaN) and the call still returns segment 1's property row. -/
theorem c1_fit_exception_skips_only_that_segment_witness :
    (∀ sig fr sf p rf, (fitErrCtx.propsImpl sig fr sf p rf).isOk = true)
  ∧ (∀ i, i < ([nanSeg, cexSeg1] : List Segment).length →
      (coerceRows sampleDf.hasRightZero
        (sampleDf.rows.filter (fun r => segMatch r i))).isOk = true)
  ∧ (compute_segment_blink_properties fitErrCtx [nanSeg, cexSeg1]
        sampleDf).result
      = .ok (contribsFrom fitErrCtx (headSfreq [nanSeg, cexSeg1]) sampleDf 0
          [nanSeg, cexSeg1])
  ∧ (compute_segment_blink_properties fitErrCtx [nanSeg, cexSeg1]
        sampleDf).result
      = .ok [⟨1, [("duration_base", some 9)]⟩] := by
  have hco : ∀ i, i < ([nanSeg, cexSeg1] : List Segment).length →
      (coerceRows sampleDf.hasRightZero
        (sampleDf.rows.filter (fun r => segMatch r i))).isOk = true := by
    intro i hi
    simp only [List.length_cons, List.length_nil] at hi
    interval_cases i
    · decide
    · decide
  exact ⟨fun _ _ _ _ _ => rfl, hco,
    c1_fit_exception_skips_only_that_segment fitErrCtx [nanSeg, cexSeg1]
      sampleDf (fun _ _ _ _ _ => rfl) hco, by decide⟩

theorem except_isOk_map (f : List OutRow → List OutRow)
    (x : Except PyError (List OutRow)) : (Except.map f x).isOk = x.isOk := by
  cases x <;> rfl

theorem filter_mk_ne (props : Table) (j i : ℕ) (hij : i ≠ j) :
    (props.map (fun fields => OutRow.mk j fields)).filter
      (fun row => decide (row.seg_id = i)) = [] := by
  induction props with
  | nil => rfl
  | cons p ps ih =>
    simp only [List.map_cons, List.filter_cons]
    simp [ih, Ne.symm hij]

theorem blockOf_map_append (props : Table) (j : ℕ)
    (x : Except PyError (List OutRow)) (i : ℕ) (hij : i ≠ j) :
    blockOf (Except.map
      (fun tbl => props.map (fun fields => OutRow.mk j fields) ++ tbl) x) i
      = blockOf x i := by
  cases x with
  | error e => rfl
  | ok t =>
    simp only [Except.map, blockOf, List.filter_append]
    rw [filter_mk_ne props j i hij]
    simp

theorem blockOf_map_eq (h : List OutRow) (x y : Except PyError (List OutRow))
    (i : ℕ) (hxy : x.isOk = y.isOk) (hb : blockOf x i = blockOf y i) :
    blockOf (Except.map (fun tbl => h ++ tbl) x) i
      = blockOf (Except.map (fun tbl => h ++ tbl) y) i := by
  cases x with
  | error e =>
    cases y with
    | error e2 => rfl
    | ok t => simp [Except.isOk, Except.toBool] at hxy
  | ok t =>
    cases y with
    | error e2 => simp [Except.isOk, Except.toBool] at hxy
    | ok t2 =>
      simp only [Except.map, blockOf, List.filter_append] at hb ⊢
      rw [hb]

theorem goSegments_signal_isolation (ctx : Ctx) (sfreq : ℚ) (frame : Frame)
    (k : ℕ)
    (hprops : ∀ sig fr sf p rf, (ctx.propsImpl sig fr sf p rf).isOk = true)
    (l1 : List Segment) : ∀ (l2 : List Segment) (j : ℕ),
    eqExceptAt k j l1 l2 →
    ((goSegments ctx sfreq frame j l1).1.isOk
       = (goSegments ctx sfreq frame j l2).1.isOk)
    ∧ ∀ i, i ≠ k → blockOf (goSegments ctx sfreq frame j l1).1 i
        = blockOf (goSegments ctx sfreq frame j l2).1 i := by
  induction l1 with
  | nil =>
    intro l2 j hd
    cases l2 with
    | nil => exact ⟨rfl, fun _ _ => rfl⟩
    | cons b bs => simp [eqExceptAt] at hd
  | cons a rest ih =>
    intro l2 j hd
    cases l2 with
    | nil => simp [eqExceptAt] at hd
    | cons b bs =>
      simp only [eqExceptAt] at hd
      obtain ⟨hab, hrest⟩ := hd
      obtain ⟨ih1, ih2⟩ := ih bs (j + 1) hrest
      cases hcc : coerceRows frame.hasRightZero
          (pandasCopy (frame.rows.filter (fun r => segMatch r j))) with
      | error e =>
        exact ⟨by simp [goSegments, hcc], fun i hik => by simp [goSegments, hcc]⟩
      | ok rows =>
        cases hemp : rows.isEmpty with
        | true =>
          simp only [goSegments, hcc, hemp]
          exact ⟨ih1, ih2⟩
        | false =>
          rcases hab with hk | hab
          · subst hk
            cases hfa : ctx.fitImpl (a.getData ctx.channel) rows ctx.params
                ctx.runFit with
            | error e1 =>
              cases hfb : ctx.fitImpl (b.getData ctx.channel) rows ctx.params
                  ctx.runFit with
              | error e2 =>
                simp only [goSegments, hcc, hemp, hfa, hfb, Bool.false_eq_true, ite_false]
                exact ⟨ih1, ih2⟩
              | ok fr2 =>
                have hp2 := hprops (b.getData ctx.channel) fr2 sfreq
                  ctx.params ctx.runFit
                cases hpb : ctx.propsImpl (b.getData ctx.channel) fr2 sfreq
                    ctx.params ctx.runFit with
                | error e =>
                  rw [hpb] at hp2
                  simp [Except.isOk, Except.toBool] at hp2
                | ok props2 =>
                  simp only [goSegments, hcc, hemp, hfa, hfb, hpb, Bool.false_eq_true, ite_false]
                  refine ⟨?_, ?_⟩
                  · rw [except_isOk_map]; exact ih1
                  · intro i hik
                    rw [blockOf_map_append props2 j _ i hik]
                    exact ih2 i hik
            | ok fr1 =>
              have hp1 := hprops (a.getData ctx.channel) fr1 sfreq ctx.params
                ctx.runFit
              cases hpa : ctx.propsImpl (a.getData ctx.channel) fr1 sfreq
                  ctx.params ctx.runFit with
              | error e =>
                rw [hpa] at hp1
                simp [Except.isOk, Except.toBool] at hp1
              | ok props1 =>
                cases hfb : ctx.fitImpl (b.getData ctx.channel) rows
                    ctx.params ctx.runFit with
                | error e2 =>
                  simp only [goSegments, hcc, hemp, hfa, hfb, hpa, Bool.false_eq_true, ite_false]
                  refine ⟨?_, ?_⟩
                  · rw [except_isOk_map]; exact ih1
                  · intro i hik
                    rw [blockOf_map_append props1 j _ i hik]
                    exact ih2 i hik
                | ok fr2 =>
                  have hp2 := hprops (b.getData ctx.channel) fr2 sfreq
                    ctx.params ctx.runFit
                  cases hpb : ctx.propsImpl (b.getData ctx.channel) fr2 sfreq
                      ctx.params ctx.runFit with
                  | error e =>
                    rw [hpb] at hp2
                    simp [Except.isOk, Except.toBool] at hp2
                  | ok props2 =>
                    simp only [goSegments, hcc, hemp, hfa, hfb, hpa, hpb, Bool.false_eq_true, ite_false]
                    refine ⟨?_, ?_⟩
                    · rw [except_isOk_map, except_isOk_map]; exact ih1
                    · intro i hik
                      rw [blockOf_map_append props1 j _ i hik,
                          blockOf_map_append props2 j _ i hik]
                      exact ih2 i hik
          · subst hab
            cases hf : ctx.fitImpl (a.getData ctx.channel) rows ctx.params
                ctx.runFit with
            | error e =>
              simp only [goSegments, hcc, hemp, hf, Bool.false_eq_true, ite_false]
              exact ⟨ih1, ih2⟩
            | ok fr =>
              cases hpp : ctx.propsImpl (a.getData ctx.channel) fr sfreq
                  ctx.params ctx.runFit with
              | error e =>
                exact ⟨by simp [goSegments, hcc, hemp, hf, hpp],
                  fun _ _ => by simp [goSegments, hcc, hemp, hf, hpp]⟩
              | ok props =>
                simp only [goSegments, hcc, hemp, hf, hpp, Bool.false_eq_true, ite_false]
                refine ⟨?_, ?_⟩
                · rw [except_isOk_map, except_isOk_map]; exact ih1
                · intro i hik
                  exact blockOf_map_eq _ _ _ i ih1 (ih2 i hik)

/-- C2: segment isolation.  For two runs over segment lists that agree
everywhere except (at most) at position `k` — in particular when segment
`k`'s signal is corrupted, e.g. replaced by all-NaN — and whose first
segment has the same sampling rate, the output rows produced for every
other segment are exactly equal between the two runs, for any fitter and
any property calculator that raises no exception (per spec 4.4 the
property calculator degrades to NaN instead of raising). -/
theorem c2_segment_isolation (ctx : Ctx) (segments segments2 : List Segment)
    (blink_df : Frame) (k : ℕ)
    (hprops : ∀ sig fr sf p rf, (ctx.propsImpl sig fr sf p rf).isOk = true)
    (hdiff : eqExceptAt k 0 segments segments2)
    (hsf : headSfreq segments = headSfreq segments2)
    (i : ℕ) (hik : i ≠ k) :
    blockOf (compute_segment_blink_properties ctx segments blink_df).result i
      = blockOf (compute_segment_blink_properties ctx segments2
          blink_df).result i := by
  unfold compute_segment_blink_properties
  by_cases hempty : blink_df.rows.isEmpty = true
  · rw [if_pos hempty, if_pos hempty]
  · rw [if_neg hempty, if_neg hempty, hsf]
    exact (goSegments_signal_isolation ctx (headSfreq segments2) blink_df k
      hprops segments segments2 0 hdiff).2 i hik

/-- Witness for C2: corrupting segment 0's signal to all-NaN (which makes
its fit raise) leaves segment 1's output rows unchanged and non-empty. -/
theorem c2_segment_isolation_witness :
    (∀ sig fr sf p rf, (isoCtx.propsImpl sig fr sf p rf).isOk = true)
  ∧ eqExceptAt 0 0 [cexSeg0, cexSeg1] [nanSeg, cexSeg1]
  ∧ headSfreq [cexSeg0, cexSeg1] = headSfreq [nanSeg, cexSeg1]
  ∧ blockOf (compute_segment_blink_properties isoCtx [cexSeg0, cexSeg1]
        sampleDf).result 1
      = blockOf (compute_segment_blink_properties isoCtx [nanSeg, cexSeg1]
          sampleDf).result 1
  ∧ blockOf (compute_segment_blink_properties isoCtx [cexSeg0, cexSeg1]
        sampleDf).result 1
      = [⟨1, [("duration_base", some 4)]⟩] := by
  refine ⟨fun _ _ _ _ _ => rfl, ?_, rfl, ?_, by decide⟩
  · simp [eqExceptAt]
  · exact c2_segment_isolation isoCtx [cexSeg0, cexSeg1] [nanSeg, cexSeg1]
      sampleDf 0 (fun _ _ _ _ _ => rfl) (by simp [eqExceptAt]) rfl 1
      (by decide)

theorem segMatch_inRange (n i : ℕ) (hin : i < n) (r : Row)
    (h : segMatch r i = true) : inRangeSegId n r = true := by
  have hs : r.seg_id = some ((i : ℕ) : ℚ) := by
    unfold segMatch at h
    exact of_decide_eq_true h
  unfold inRangeSegId
  rw [hs]
  simp [Rat.num_natCast, Rat.den_natCast, Int.natCast_nonneg, hin]

theorem filter_segMatch_inRange (rows : List Row) (n i : ℕ) (hin : i < n) :
    (rows.filter (inRangeSegId n)).filter (fun r => segMatch r i)
      = rows.filter (fun r => segMatch r i) := by
  rw [List.filter_filter]
  apply List.filter_congr
  intro r _
  cases h : segMatch r i
  · simp
  · simp [segMatch_inRange n i hin r h]

theorem goSegments_nil_rows (ctx : Ctx) (sfreq : ℚ) (hRZ : Bool)
    (l : List Segment) : ∀ j,
    (goSegments ctx sfreq ⟨hRZ, []⟩ j l).1 = .ok []
    ∧ (goSegments ctx sfreq ⟨hRZ, []⟩ j l).2.1 = [] := by
  induction l with
  | nil => intro _; exact ⟨rfl, rfl⟩
  | cons a rest ih => intro j; exact ih (j + 1)

theorem goSegments_inRange (ctx : Ctx) (sfreq : ℚ) (hRZ : Bool)
    (rows : List Row) (n : ℕ) (l : List Segment) : ∀ j, j + l.length ≤ n →
    ((goSegments ctx sfreq ⟨hRZ, rows.filter (inRangeSegId n)⟩ j l).1
       = (goSegments ctx sfreq ⟨hRZ, rows⟩ j l).1)
    ∧ ((goSegments ctx sfreq ⟨hRZ, rows.filter (inRangeSegId n)⟩ j l).2.1
       = (goSegments ctx sfreq ⟨hRZ, rows⟩ j l).2.1) := by
  induction l with
  | nil => intro _ _; exact ⟨rfl, rfl⟩
  | cons a rest ih =>
    intro j hn
    have hin : j < n := by
      simp only [List.length_cons] at hn
      omega
    have hfeq : (rows.filter (inRangeSegId n)).filter (fun r => segMatch r j)
        = rows.filter (fun r => segMatch r j) :=
      filter_segMatch_inRange rows n j hin
    have htail := ih (j + 1) (by simp only [List.length_cons] at hn ⊢; omega)
    cases hcc : coerceRows hRZ
        (pandasCopy (rows.filter (fun r => segMatch r j))) with
    | error e => simp [goSegments, hfeq, hcc]
    | ok rows2 =>
      cases hemp : rows2.isEmpty with
      | true =>
        simp only [goSegments, hfeq, hcc, hemp]
        exact htail
      | false =>
        cases hf : ctx.fitImpl (a.getData ctx.channel) rows2 ctx.params
            ctx.runFit with
        | error e =>
          simp only [goSegments, hfeq, hcc, hemp, hf, Bool.false_eq_true,
            ite_false]
          exact ⟨htail.1, by rw [htail.2]⟩
        | ok fr =>
          cases hpp : ctx.propsImpl (a.getData ctx.channel) fr sfreq
              ctx.params ctx.runFit with
          | error e => simp [goSegments, hfeq, hcc, hemp, hf, hpp]
          | ok props =>
            simp only [goSegments, hfeq, hcc, hemp, hf, hpp,
              Bool.false_eq_true, ite_false]
            exact ⟨by rw [htail.1], by rw [htail.2]⟩

/-- C10: candidate rows are matched to segments purely by position — a
row is selected only when its `seg_id` cell equals the zero-based loop
position of some segment.  Dropping every row whose `seg_id` is NaN,
negative, fractional, or at least the number of segments changes neither
the returned value (including the absence of any error) nor the event
trace: such rows are silently ignored. -/
theorem c10_out_of_range_rows_ignored (ctx : Ctx) (segments : List Segment)
    (blink_df : Frame) :
    ((compute_segment_blink_properties ctx segments
        (inRangeFrame segments.length blink_df)).result
       = (compute_segment_blink_properties ctx segments blink_df).result)
  ∧ ((compute_segment_blink_properties ctx segments
        (inRangeFrame segments.length blink_df)).trace
       = (compute_segment_blink_properties ctx segments blink_df).trace) := by
  rcases blink_df with ⟨hRZ, rows⟩
  by_cases hempty : rows.isEmpty = true
  · have hnil : rows = [] := List.isEmpty_iff.mp hempty
    subst hnil
    exact ⟨rfl, rfl⟩
  · by_cases hfe : (rows.filter (inRangeSegId segments.length)).isEmpty = true
    · have hrnil : rows.filter (inRangeSegId segments.length) = [] :=
        List.isEmpty_iff.mp hfe
      have h1 := goSegments_inRange ctx (headSfreq segments) hRZ rows
        segments.length segments 0 (by simp)
      have h2 := goSegments_nil_rows ctx (headSfreq segments) hRZ segments 0
      rw [hrnil] at h1
      unfold compute_segment_blink_properties inRangeFrame
      simp only [hrnil, hempty, List.isEmpty_nil, Bool.false_eq_true,
        ite_true, ite_false]
      exact ⟨(h1.1.symm.trans h2.1).symm, (h1.2.symm.trans h2.2).symm⟩
    · have h1 := goSegments_inRange ctx (headSfreq segments) hRZ rows
        segments.length segments 0 (by simp)
      unfold compute_segment_blink_properties inRangeFrame
      rw [if_neg (by simpa using hfe), if_neg hempty]
      exact ⟨h1.1, h1.2⟩
